import Mathlib

/-!
# Verification of the conformal stencil generator's geometry pipeline

Shallow embedding of the repository's 2D geometry module (`src/geom2d.py`)
and 3D mesh module (`src/mesh3d.py`), with theorems settling the spec's
claims about them.

Conventions of the embedding:
* Python floats are modelled as rationals (every IEEE double is a rational
  number); float comparisons become exact rational comparisons.
* A Euclidean-distance comparison `dist(p, q) <= d` (computed in the source
  via a square root) is embedded as the equivalent rational comparison
  `0 <= d ∧ sqDist p q <= d^2`; the equivalence with the real square-root
  formulation is proved (`distLeQ_iff_sqrt`).
* Shapely / trimesh / numpy library operations are third-party code, not
  code of this repository.  Where the repository merely forwards a library
  value (`is_valid`, `is_empty`, `centroid`, `exterior.project`,
  `is_watertight`, ...), the embedding carries the value as a field of the
  data model or as an explicit function argument.  Where a claim is about
  the *geometric meaning* of a library boolean operation, the operation is
  interpreted by its documented set semantics on point sets of the real
  plane (`difference` = set difference, `unary_union` = set union,
  `box` = closed axis-aligned rectangle, positive `buffer` = Minkowski
  expansion by a closed disc).
-/

/-! ## Rational 2D points and distance tests -/

/-- A 2D point with rational (exact-float) coordinates. -/
abbrev Pt : Type := ℚ × ℚ

/-- Squared Euclidean distance between two rational points. -/
def sqDistQ (p q : Pt) : ℚ :=
  (p.1 - q.1) ^ 2 + (p.2 - q.2) ^ 2

/-- Exact embedding of the float test `dist(p, q) <= d`: equivalent to
`0 ≤ d` together with `sqDist ≤ d²`. -/
def distLeQ (p q : Pt) (d : ℚ) : Bool :=
  decide (0 ≤ d ∧ sqDistQ p q ≤ d ^ 2)

lemma sqDistQ_nonneg (p q : Pt) : 0 ≤ sqDistQ p q := by
  have h1 : (0:ℚ) ≤ (p.1 - q.1) ^ 2 := sq_nonneg _
  have h2 : (0:ℚ) ≤ (p.2 - q.2) ^ 2 := sq_nonneg _
  unfold sqDistQ; linarith

lemma sqDistQ_eq_zero_iff (p q : Pt) : sqDistQ p q = 0 ↔ p = q := by
  constructor
  · intro h
    have h1 : (0:ℚ) ≤ (p.1 - q.1) ^ 2 := sq_nonneg _
    have h2 : (0:ℚ) ≤ (p.2 - q.2) ^ 2 := sq_nonneg _
    unfold sqDistQ at h
    have hx : (p.1 - q.1) ^ 2 = 0 := by linarith
    have hy : (p.2 - q.2) ^ 2 = 0 := by linarith
    have hx' : p.1 = q.1 := by
      have := pow_eq_zero_iff (n := 2) (by norm_num) |>.mp hx
      linarith
    have hy' : p.2 = q.2 := by
      have := pow_eq_zero_iff (n := 2) (by norm_num) |>.mp hy
      linarith
    exact Prod.ext hx' hy'
  · intro h; subst h; unfold sqDistQ; ring

/-- The rational test `distLeQ` coincides with the real Euclidean
distance comparison `sqrt (sqDist) ≤ d` that the source computes with
`np.sqrt` / shapely `distance`. -/
lemma distLeQ_iff_sqrt (p q : Pt) (d : ℚ) :
    distLeQ p q d = true ↔ Real.sqrt ((sqDistQ p q : ℚ) : ℝ) ≤ (d : ℝ) := by
  unfold distLeQ
  rw [decide_eq_true_iff]
  constructor
  · rintro ⟨hd, hle⟩
    have hd' : (0:ℝ) ≤ (d : ℝ) := by exact_mod_cast hd
    have hle' : ((sqDistQ p q : ℚ) : ℝ) ≤ ((d : ℚ) : ℝ) ^ 2 := by exact_mod_cast hle
    calc Real.sqrt ((sqDistQ p q : ℚ) : ℝ)
        ≤ Real.sqrt (((d : ℚ) : ℝ) ^ 2) := Real.sqrt_le_sqrt hle'
      _ = (d : ℝ) := by rw [Real.sqrt_sq hd']
  · intro h
    have hs : (0:ℝ) ≤ ((sqDistQ p q : ℚ) : ℝ) := by
      exact_mod_cast sqDistQ_nonneg p q
    have hd' : (0:ℝ) ≤ (d : ℝ) := le_trans (Real.sqrt_nonneg _) h
    have hle : ((sqDistQ p q : ℚ) : ℝ) ≤ ((d : ℝ)) ^ 2 := by
      have := Real.sq_sqrt hs
      calc ((sqDistQ p q : ℚ) : ℝ) = Real.sqrt ((sqDistQ p q : ℚ) : ℝ) ^ 2 := by
            rw [Real.sq_sqrt hs]
        _ ≤ (d : ℝ) ^ 2 := by
            have h0 := Real.sqrt_nonneg ((sqDistQ p q : ℚ) : ℝ)
            nlinarith
    constructor
    · exact_mod_cast hd'
    · exact_mod_cast hle

/-! ## Structural embedding of `create_mask_plate` (src/geom2d.py, lines 12-59)

The function's own logic is: take bounds, build the margin-expanded box,
optionally buffer the artwork, subtract, and post-process the result
(largest piece of a MultiPolygon, `buffer(0)` repair of an invalid result).
The shapely primitives it calls are abstracted into a `GeomLib` record; the
post-processing logic is translated literally. -/

/-- Result of a shapely `difference` call as the source inspects it:
either a single `Polygon` or a `MultiPolygon` (list of pieces). -/
inductive DiffResult (α : Type) where
  | poly  (p : α)
  | multi (ps : List α)
deriving Repr, DecidableEq

/-- Abstract interface of the shapely operations `create_mask_plate`
invokes.  `α` is the library's polygon type. -/
structure GeomLib (α : Type) where
  bounds : α → ℚ × ℚ × ℚ × ℚ
  box : ℚ → ℚ → ℚ → ℚ → α
  buffer : α → ℚ → α
  difference : α → α → DiffResult α
  area : α → ℚ
  is_valid : α → Bool
  buffer0 : α → α

/-- Python's `max(xs, key=k)`: first element of maximal key (later elements
replace the current maximum only when strictly greater); `none` on an empty
list (Python raises `ValueError` there). -/
def pyMax {α : Type} (key : α → ℚ) : List α → Option α
  | [] => none
  | x :: xs => some (xs.foldl (fun acc y => if key acc < key y then y else acc) x)

/-- The source's final validity fix-up: `buffer(0)` when invalid. -/
def fixValid {α : Type} (lib : GeomLib α) (p : α) : α :=
  if lib.is_valid p then p else lib.buffer0 p

/-- The outer plate rectangle: the artwork's bounding box expanded by
`plate_margin` on all sides (source lines 28-37). -/
def plateOf {α : Type} (lib : GeomLib α) (geometry : α) (plate_margin : ℚ) : α :=
  let b := lib.bounds geometry
  let minx := b.1; let miny := b.2.1; let maxx := b.2.2.1; let maxy := b.2.2.2
  lib.box (minx - plate_margin) (miny - plate_margin)
    (maxx + plate_margin) (maxy + plate_margin)

/-- The (optionally clearance-buffered) artwork (source lines 39-44). -/
def bufferedOf {α : Type} (lib : GeomLib α) (geometry : α) (clearance : ℚ) : α :=
  if 0 < clearance then lib.buffer geometry clearance else geometry

/-- Translation of `create_mask_plate(geometry, plate_margin, clearance)`.
`none` models the `ValueError` Python's `max` would raise on an empty
MultiPolygon. -/
def create_mask_plate {α : Type} (lib : GeomLib α) (geometry : α)
    (plate_margin clearance : ℚ) : Option α :=
  match lib.difference (plateOf lib geometry plate_margin)
      (bufferedOf lib geometry clearance) with
  | .poly p => some (fixValid lib p)
  | .multi ps => (pyMax lib.area ps).map (fixValid lib)

/-! ## Structural embedding of `detect_islands` and `add_sprues`
(src/geom2d.py, lines 62-188) -/

/-- One interior ring of the plate polygon, as `detect_islands` observes it
after the library converts the ring to a standalone polygon:
`Polygon(interior).is_valid`, `.is_empty`, and `.centroid` are
library-computed values carried as data. -/
structure RingData where
  is_valid : Bool
  is_empty : Bool
  centroid : Pt

/-- `detect_islands(geometry)`: every interior ring, converted to a
polygon, kept when valid and non-empty, in original enumeration order. -/
def detect_islands (interiors : List RingData) : List RingData :=
  interiors.filter (fun r => r.is_valid && !r.is_empty)

/-- A sprue polygon as `create_sprue_rectangle` returns it: the empty
polygon in the degenerate zero-length case, otherwise the rectangle
determined by the two endpoints and the width (the corner coordinates
involve a square root; the rectangle is kept as its defining data here and
interpreted as a real point set by `SpruePoly.region` below). -/
inductive SpruePoly where
  | empty
  | rect (p1 p2 : Pt) (width : ℚ)
deriving Repr, DecidableEq

/-- Is this the empty polygon? -/
def SpruePoly.isEmptyPoly : SpruePoly → Bool
  | .empty => true
  | .rect _ _ _ => false

/-- Translation of `create_sprue_rectangle(point1, point2, width)`:
`length == 0` (exactly: `dx**2 + dy**2 == 0`) returns the empty polygon;
otherwise the perpendicular-offset rectangle on `p1`, `p2` of the given
width. -/
def create_sprue_rectangle (point1 point2 : Pt) (width : ℚ) : SpruePoly :=
  if sqDistQ point1 point2 = 0 then .empty else .rect point1 point2 width

/-- The plate polygon as `add_sprues` observes it: its semantic point set
in the real plane, its interior rings, and the library map sending a point
to its nearest point on the exterior ring
(`exterior.interpolate(exterior.project(p))`). -/
structure PlateData where
  region : Set (ℝ × ℝ)
  interiors : List RingData
  nearestExtPoint : Pt → Pt

/-- The `for i, island in enumerate(islands[:max_count])` loop body of
`add_sprues`: for each island of the truncated list, compute the centroid's
nearest exterior point; when the distance is within `max_length`, append
`create_sprue_rectangle(centroid, nearest, sprue_width)`. -/
def sprueLoop (nearest : Pt → Pt) (sprue_width max_length : ℚ) :
    List RingData → List SpruePoly
  | [] => []
  | island :: rest =>
      let island_center := island.centroid
      let nearest_point := nearest island_center
      if distLeQ island_center nearest_point max_length then
        create_sprue_rectangle island_center nearest_point sprue_width ::
          sprueLoop nearest sprue_width max_length rest
      else
        sprueLoop nearest sprue_width max_length rest

/-- The complete sprue list `add_sprues` builds for a plate. -/
def spruesOf (plate : PlateData) (sprue_width max_length : ℚ) (max_count : ℕ) :
    List SpruePoly :=
  sprueLoop plate.nearestExtPoint sprue_width max_length
    ((detect_islands plate.interiors).take max_count)

/-! ## Semantic interpretation in the real plane

Shapely's boolean operations are interpreted by their documented set
semantics on point sets of `ℝ × ℝ`. -/

/-- Real point of the plane. -/
abbrev R2 : Type := ℝ × ℝ

/-- Embed a rational (exact-float) point into the real plane. -/
def toR2 (p : Pt) : R2 := ((p.1 : ℝ), (p.2 : ℝ))

/-- Euclidean dot product on the plane. -/
def dotR (u v : R2) : ℝ := u.1 * v.1 + u.2 * v.2

/-- Counter-clockwise perpendicular of a vector (the source's
`perp = (-dy, dx)`). -/
def perpR (v : R2) : R2 := (-v.2, v.1)

/-- The point set of a sprue polygon.  The empty polygon is the empty set.
For `rect p1 p2 w` the source builds the quadrilateral with corners
`p1 ± (w/2)·n` and `p2 ∓ (w/2)·n`, `n` the unit perpendicular of
`d = p2 - p1`.  Writing `q = p1 + s·d + t·n`, the quadrilateral is exactly
`s ∈ [0,1], t ∈ [-w/2, w/2]`; eliminating the square root hidden in `n`
this is the polynomial description used here:
`0 ≤ (q-p1)·d ≤ d·d` and `((q-p1)·d⊥)² ≤ (w/2)²·(d·d)`
(because `(q-p1)·d = s·(d·d)` and `(q-p1)·d⊥ = t·‖d‖`). -/
def SpruePoly.region : SpruePoly → Set R2
  | .empty => ∅
  | .rect p1 p2 w =>
      {q : R2 |
        0 ≤ dotR (q - toR2 p1) (toR2 p2 - toR2 p1) ∧
        dotR (q - toR2 p1) (toR2 p2 - toR2 p1) ≤
          dotR (toR2 p2 - toR2 p1) (toR2 p2 - toR2 p1) ∧
        (dotR (q - toR2 p1) (perpR (toR2 p2 - toR2 p1))) ^ 2 ≤
          ((w : ℝ) / 2) ^ 2 * dotR (toR2 p2 - toR2 p1) (toR2 p2 - toR2 p1)}

/-- Shapely's `unary_union` of a list of geometries: the union of their
point sets (folded up pairwise, as the library computes it). -/
def unaryUnion (l : List SpruePoly) : Set R2 :=
  l.foldl (fun acc s => acc ∪ s.region) ∅

/-- Semantic translation of `add_sprues(plate, sprue_width, max_length,
max_count)` (src/geom2d.py lines 85-141): detect the islands, return the
plate unchanged when there are none; build the sprue list; when it is
non-empty subtract the unary union of the sprues from the plate in a
single `difference` call. -/
def add_sprues (plate : PlateData) (sprue_width max_length : ℚ)
    (max_count : ℕ) : Set R2 :=
  let islands := detect_islands plate.interiors
  if islands.isEmpty then plate.region
  else
    let sprues := spruesOf plate sprue_width max_length max_count
    if sprues.isEmpty then plate.region
    else plate.region \ unaryUnion sprues

/-- Closed axis-aligned rectangle, the point set of `shapely.geometry.box`. -/
def boxSet (x0 y0 x1 y1 : ℝ) : Set R2 := Set.Icc x0 x1 ×ˢ Set.Icc y0 y1

/-- Positive shapely `buffer`: all points within distance `c` of the
geometry (Minkowski expansion by the closed disc of radius `c`), written
with squared distances to avoid the square root. -/
def bufferSet (G : Set R2) (c : ℝ) : Set R2 :=
  {p : R2 | ∃ q ∈ G, (p.1 - q.1) ^ 2 + (p.2 - q.2) ^ 2 ≤ c ^ 2}

/-- Semantic translation of the geometry-producing part of
`create_mask_plate` (src/geom2d.py lines 28-47): the margin-expanded
bounding box of the artwork minus the (clearance-buffered) artwork.
`bounds` is the library-computed bounding box `(minx, miny, maxx, maxy)` of
`G`.  (The structural post-processing — largest piece of a MultiPolygon
result, `buffer(0)` repair — is covered by `create_mask_plate` above.) -/
def create_mask_plate_region (G : Set R2) (bounds : ℝ × ℝ × ℝ × ℝ)
    (plate_margin clearance : ℝ) : Set R2 :=
  let minx := bounds.1; let miny := bounds.2.1
  let maxx := bounds.2.2.1; let maxy := bounds.2.2.2
  let plate := boxSet (minx - plate_margin) (miny - plate_margin)
    (maxx + plate_margin) (maxy + plate_margin)
  let buffered := if 0 < clearance then bufferSet G clearance else G
  plate \ buffered

/-- The holes of a plane region `S`: the bounded connected components of
its complement.  (The unbounded component of the complement is the outside
of the plate; every other component is a hole.) -/
def holesOf (S : Set R2) : Set (Set R2) :=
  {C | (∃ x ∈ Sᶜ, C = connectedComponentIn Sᶜ x) ∧ Bornology.IsBounded C}

/-! ## Structural embedding of `add_alignment_marks`
(src/geom2d.py, lines 191-238) -/

/-- A single alignment-mark shape as the source constructs it: either the
disc `Point(x, y).buffer(mark_size / 2)` or the crosshair union of the
horizontal and vertical boxes (each box given as
`(minx, miny, maxx, maxy)`). -/
inductive MarkShape where
  | circle (center : Pt) (radius : ℚ)
  | cross (h_line v_line : ℚ × ℚ × ℚ × ℚ)
deriving Repr, DecidableEq

/-- Python's `str.lower()` restricted to what the source compares it with
(ASCII), written character-wise so that it evaluates in the kernel. -/
def strLower (s : String) : String := ⟨s.data.map Char.toLower⟩

/-- The mark built at anchor `(x, y)`: the string dispatch of the source —
a circular hole exactly when the lower-cased mark type is `"circular_hole"`
or `"circular hole"`, a crosshair otherwise. -/
def markFor (mark_type : String) (x y mark_size : ℚ) : MarkShape :=
  if strLower mark_type = "circular_hole" || strLower mark_type = "circular hole" then
    .circle (x, y) (mark_size / 2)
  else
    .cross
      (x - mark_size / 2, y - mark_size / 10, x + mark_size / 2, y + mark_size / 10)
      (x - mark_size / 10, y - mark_size / 2, x + mark_size / 10, y + mark_size / 2)

/-- The four corner anchor positions, inset by `offset_from_edge` from the
plate's bounding box `(minx, miny, maxx, maxy)`. -/
def markPositions (bounds : ℚ × ℚ × ℚ × ℚ) (offset_from_edge : ℚ) : List Pt :=
  let minx := bounds.1; let miny := bounds.2.1
  let maxx := bounds.2.2.1; let maxy := bounds.2.2.2
  [(minx + offset_from_edge, miny + offset_from_edge),
   (maxx - offset_from_edge, miny + offset_from_edge),
   (minx + offset_from_edge, maxy - offset_from_edge),
   (maxx - offset_from_edge, maxy - offset_from_edge)]

/-- The list of marks `add_alignment_marks` accumulates before the single
union-and-subtract; total in `mark_type` (the source has no raise path). -/
def alignmentMarks (bounds : ℚ × ℚ × ℚ × ℚ) (mark_type : String)
    (mark_size offset_from_edge : ℚ) : List MarkShape :=
  (markPositions bounds offset_from_edge).map
    (fun p => markFor mark_type p.1 p.2 mark_size)

/-! ## Embedding of the mesh module (src/mesh3d.py) -/

/-- A floating-point value: finite (an exact rational), NaN, or ±infinity.
Only finiteness is inspected by the embedded code (`np.isfinite`). -/
inductive FVal where
  | fin (q : ℚ)
  | nan
  | inf
  | ninf
deriving Repr, DecidableEq

/-- `np.isfinite` on one value. -/
def FVal.isFinite : FVal → Bool
  | .fin _ => true
  | _ => false

/-- A 3D vertex. -/
abbrev V3 : Type := FVal × FVal × FVal

/-- A trimesh `Trimesh` as the embedded code observes it.  `is_watertight`
is the library's derived property.  `degenerate_faces` models the optional
attribute probed via `hasattr` (a boolean mask over faces when present).
`volume` models the `mesh.volume` property: `none` when accessing it
raises (the source wraps the access in `try/except: pass`). -/
structure MeshData where
  vertices : List V3
  faces : List (ℕ × ℕ × ℕ)
  is_watertight : Bool
  degenerate_faces : Option (List Bool)
  volume : Option ℚ

/-- Are all vertex coordinates finite (`np.isfinite(mesh.vertices).all()`)? -/
def MeshData.verticesFinite (m : MeshData) : Bool :=
  m.vertices.all (fun v => v.1.isFinite && v.2.1.isFinite && v.2.2.isFinite)

/-- The `issues` list accumulated by `validate_mesh` once the structural
early returns are passed: watertightness, degenerate faces, non-finite
vertex values, and (for a watertight mesh whose volume computation does
not raise) non-positive volume — in source order.  (`{volume}` is
interpolated via `toString` of the exact rational here.) -/
def issuesList (m : MeshData) : List String :=
  (if m.is_watertight then [] else ["Mesh is not watertight"]) ++
  (match m.degenerate_faces with
   | some mask =>
       if mask.any id then
         ["Mesh has " ++ toString (mask.count true) ++ " degenerate faces"]
       else []
   | none => []) ++
  (if m.verticesFinite then []
   else ["Mesh contains infinite or NaN vertex values"]) ++
  (match m.volume with
   | some v =>
       if m.is_watertight && v ≤ 0 then
         ["Mesh has invalid volume: " ++ toString v]
       else []
   | none => [])

/-- Translation of `validate_mesh(mesh)` (src/mesh3d.py lines 133-180).
The argument is `Option MeshData`, `none` standing for Python's `None`.
The three structural checks return immediately; the remaining checks are
accumulated in `issuesList`. -/
def validate_mesh (mesh : Option MeshData) : Bool × String :=
  match mesh with
  | none => (false, "Mesh is None")
  | some m =>
    if m.vertices.length = 0 then (false, "Mesh has no vertices")
    else if m.faces.length = 0 then (false, "Mesh has no faces")
    else
      let issues := issuesList m
      if issues.isEmpty then (true, "Mesh is valid and printable")
      else (false, String.intercalate "; " issues)

/-- A shapely polygon as `extrude_to_mesh` observes it: only its validity
and emptiness flags are inspected before the library extrusion call. -/
structure Geom2D where
  is_valid : Bool
  is_empty : Bool

/-- The `try` block of `extrude_to_mesh(geometry_2d, thickness)`
(src/mesh3d.py lines 13-60): `extrudeLib` abstracts
`trimesh.creation.extrude_polygon` and `repairSeq` the in-`try` repair
sequence applied when the fresh mesh is not watertight; either may raise
(`Except.error` with the exception text). -/
def extrudeTry (extrudeLib : Geom2D → ℚ → Except String MeshData)
    (repairSeq : MeshData → Except String MeshData)
    (geometry_2d : Geom2D) (thickness : ℚ) : Except String MeshData :=
  match extrudeLib geometry_2d thickness with
  | .error e => .error e
  | .ok mesh => if mesh.is_watertight then .ok mesh else repairSeq mesh

/-- Translation continued: the guards and the `except` re-raise around the
`try` block above. -/
def extrude_to_mesh (extrudeLib : Geom2D → ℚ → Except String MeshData)
    (repairSeq : MeshData → Except String MeshData)
    (geometry_2d : Geom2D) (thickness : ℚ) : Except String MeshData :=
  if !geometry_2d.is_valid then .error "Input geometry is not valid"
  else if geometry_2d.is_empty then .error "Input geometry is empty"
  else if thickness ≤ 0 then .error "Thickness must be positive"
  else
    match extrudeTry extrudeLib repairSeq geometry_2d thickness with
    | .error e => .error ("Failed to extrude geometry: " ++ e)
    | .ok m => .ok m

/-- Observable outcome of `export_stl`: the warnings printed and either
normal return or a raised `ValueError`. -/
structure ExportOutcome where
  warnings : List String
  result : Except String Unit

/-- Translation of `export_stl(mesh, output_path)` (src/mesh3d.py lines
97-130).  `repairFn` abstracts the in-place repair sequence (the mutated
mesh is its return value); `exportLib` abstracts `mesh.export(...)`, whose
exception text `e` is re-raised as `ValueError("Failed to export STL: " ++ e)`.
A failed validation never raises: after a failed re-validation the source
only prints `"Warning: ..."` and exports anyway. -/
def export_stl (repairFn : MeshData → MeshData)
    (exportLib : MeshData → Except String Unit)
    (mesh : MeshData) : ExportOutcome :=
  let first := validate_mesh (some mesh)
  let mesh' := if first.1 then mesh else repairFn mesh
  let warnings :=
    if first.1 then []
    else
      let second := validate_mesh (some mesh')
      if second.1 then [] else ["Warning: " ++ second.2]
  { warnings := warnings
    result :=
      match exportLib mesh' with
      | .error e => .error ("Failed to export STL: " ++ e)
      | .ok _ => .ok () }

/-! ## Supporting lemmas -/

/-- Specification of the fold underlying `pyMax`: the result is the
initial element or a list element, and its key dominates all of them. -/
lemma pyFold_spec {α : Type} (key : α → ℚ) :
    ∀ (xs : List α) (x : α),
      (xs.foldl (fun acc y => if key acc < key y then y else acc) x = x ∨
        xs.foldl (fun acc y => if key acc < key y then y else acc) x ∈ xs) ∧
      key x ≤ key (xs.foldl (fun acc y => if key acc < key y then y else acc) x) ∧
      ∀ y ∈ xs, key y ≤ key (xs.foldl (fun acc y => if key acc < key y then y else acc) x) := by
  intro xs
  induction xs with
  | nil => intro x; refine ⟨Or.inl rfl, le_refl _, ?_⟩; intro y hy; cases hy
  | cons z zs ih =>
    intro x
    by_cases hc : key x < key z
    · have step : List.foldl (fun acc y => if key acc < key y then y else acc) x (z :: zs) =
          List.foldl (fun acc y => if key acc < key y then y else acc) z zs := by
        simp [List.foldl_cons, hc]
      obtain ⟨hmem, hinit, hall⟩ := ih z
      rw [step]
      refine ⟨?_, le_trans (le_of_lt hc) hinit, ?_⟩
      · rcases hmem with h | h
        · exact Or.inr (List.mem_cons.mpr (Or.inl h))
        · exact Or.inr (List.mem_cons_of_mem z h)
      · intro y hy
        rcases List.mem_cons.mp hy with h | h
        · rw [h]; exact hinit
        · exact hall y h
    · have step : List.foldl (fun acc y => if key acc < key y then y else acc) x (z :: zs) =
          List.foldl (fun acc y => if key acc < key y then y else acc) x zs := by
        simp [List.foldl_cons, hc]
      obtain ⟨hmem, hinit, hall⟩ := ih x
      rw [step]
      refine ⟨?_, hinit, ?_⟩
      · rcases hmem with h | h
        · exact Or.inl h
        · exact Or.inr (List.mem_cons_of_mem z h)
      · intro y hy
        rcases List.mem_cons.mp hy with h | h
        · rw [h]; exact le_trans (le_of_not_lt hc) hinit
        · exact hall y h

/-- `pyMax` returns an element of the list of maximal key. -/
lemma pyMax_spec {α : Type} (key : α → ℚ) (l : List α) (m : α)
    (h : pyMax key l = some m) : m ∈ l ∧ ∀ y ∈ l, key y ≤ key m := by
  cases l with
  | nil => simp [pyMax] at h
  | cons x xs =>
    simp only [pyMax, Option.some.injEq] at h
    obtain ⟨hmem, hinit, hall⟩ := pyFold_spec key xs x
    subst h
    constructor
    · rcases hmem with h | h
      · exact List.mem_cons.mpr (Or.inl h)
      · exact List.mem_cons_of_mem x h
    · intro y hy
      rcases List.mem_cons.mp hy with h | h
      · rw [h]; exact hinit
      · exact hall y h

/-- `pyMax` succeeds on a non-empty list. -/
lemma pyMax_isSome {α : Type} (key : α → ℚ) (l : List α) (hne : l ≠ []) :
    ∃ m, pyMax key l = some m := by
  cases l with
  | nil => exact absurd rfl hne
  | cons x xs => exact ⟨_, rfl⟩

/-- The sprue loop is the take-filter-map composition: one sprue per
processed island whose centroid-to-boundary distance passes the test. -/
lemma sprueLoop_eq (nearest : Pt → Pt) (w ml : ℚ) :
    ∀ l : List RingData,
      sprueLoop nearest w ml l =
        (l.filter (fun r => distLeQ r.centroid (nearest r.centroid) ml)).map
          (fun r => create_sprue_rectangle r.centroid (nearest r.centroid) w) := by
  intro l
  induction l with
  | nil => rfl
  | cons r rest ih =>
    by_cases h : distLeQ r.centroid (nearest r.centroid) ml
    · simp [sprueLoop, h, List.filter_cons, ih]
    · simp only [Bool.not_eq_true] at h
      simp [sprueLoop, h, List.filter_cons, ih]

/-- Folding set union over a list, with accumulator. -/
lemma foldl_union_eq (l : List SpruePoly) :
    ∀ acc : Set R2,
      l.foldl (fun a s => a ∪ s.region) acc = acc ∪ ⋃ s ∈ l, s.region := by
  induction l with
  | nil => intro acc; simp
  | cons s rest ih =>
    intro acc
    simp only [List.foldl_cons, ih (acc ∪ s.region)]
    ext p
    simp only [Set.mem_union, Set.mem_iUnion, List.mem_cons]
    constructor
    · rintro ((h | h) | ⟨t, ht, hp⟩)
      · exact Or.inl h
      · exact Or.inr ⟨s, Or.inl rfl, h⟩
      · exact Or.inr ⟨t, Or.inr ht, hp⟩
    · rintro (h | ⟨t, (rfl | ht), hp⟩)
      · exact Or.inl (Or.inl h)
      · exact Or.inl (Or.inr hp)
      · exact Or.inr ⟨t, ht, hp⟩

/-- `unary_union` of a sprue list is the union of the sprue point sets. -/
lemma unaryUnion_eq (l : List SpruePoly) :
    unaryUnion l = ⋃ s ∈ l, s.region := by
  unfold unaryUnion
  rw [foldl_union_eq]
  simp

/-- The final plate of `add_sprues` is always the plate minus the union of
the constructed sprues (the early returns coincide with subtracting an
empty union). -/
lemma add_sprues_eq_diff (plate : PlateData) (w ml : ℚ) (mc : ℕ) :
    add_sprues plate w ml mc =
      plate.region \ ⋃ s ∈ spruesOf plate w ml mc, s.region := by
  unfold add_sprues
  by_cases hisl : (detect_islands plate.interiors).isEmpty
  · have hnil : detect_islands plate.interiors = [] := by
      simpa [List.isEmpty_iff] using hisl
    have hs : spruesOf plate w ml mc = [] := by
      unfold spruesOf
      rw [hnil, List.take_nil]
      rfl
    simp [hisl, hs]
  · by_cases hspr : (spruesOf plate w ml mc).isEmpty
    · have hnil : spruesOf plate w ml mc = [] := by
        simpa [List.isEmpty_iff] using hspr
      simp [hisl, hspr, hnil]
    · simp [hisl, hspr, unaryUnion_eq]

/-- Empty sprue polygons contribute nothing to the union. -/
lemma biUnion_filter_nonempty (l : List SpruePoly) :
    ⋃ s ∈ l, s.region = ⋃ s ∈ l.filter (fun s => !s.isEmptyPoly), s.region := by
  induction l with
  | nil => simp
  | cons s rest ih =>
    cases s with
    | empty =>
      have : SpruePoly.empty.region = (∅ : Set R2) := rfl
      simp [List.filter_cons, SpruePoly.isEmptyPoly, this, ih]
    | rect p1 p2 w =>
      simp [List.filter_cons, SpruePoly.isEmptyPoly, ih]

/-! ## Claim theorems -/

/-- C1: in `add_sprues`, a sprue is constructed for an island exactly when
the island is among the first `max_count` holes in original
hole-enumeration order AND the Euclidean distance from its centroid to the
nearest point of the plate's outer ring is at most `max_length`; islands
beyond either limit contribute no sprue.  Stated as: the constructed sprue
list is exactly the take-`max_count`-then-filter-by-distance image of the
detected islands, together with the identification of the rational
acceptance test with the real Euclidean-distance comparison. -/
theorem add_sprues_accepts_iff_within_limits :
    ∀ (plate : PlateData) (sprue_width max_length : ℚ) (max_count : ℕ),
      spruesOf plate sprue_width max_length max_count =
        (((detect_islands plate.interiors).take max_count).filter
          (fun r => distLeQ r.centroid (plate.nearestExtPoint r.centroid) max_length)).map
          (fun r => create_sprue_rectangle r.centroid
            (plate.nearestExtPoint r.centroid) sprue_width) ∧
      ∀ c : Pt,
        (distLeQ c (plate.nearestExtPoint c) max_length = true ↔
          Real.sqrt ((sqDistQ c (plate.nearestExtPoint c) : ℚ) : ℝ) ≤ (max_length : ℝ)) := by
  intro plate w ml mc
  exact ⟨sprueLoop_eq plate.nearestExtPoint w ml _, fun c => distLeQ_iff_sqrt _ _ _⟩

/-- C2: the routed plate produced by `add_sprues` equals the plate minus
the union of all accepted sprues, i.e. the sprues are unioned once and
subtracted in a single difference (the early-return branches coincide with
subtracting an empty union). -/
theorem add_sprues_is_single_batched_difference :
    ∀ (plate : PlateData) (sprue_width max_length : ℚ) (max_count : ℕ),
      add_sprues plate sprue_width max_length max_count =
        plate.region \ ⋃ s ∈ spruesOf plate sprue_width max_length max_count, s.region := by
  intro plate w ml mc
  exact add_sprues_eq_diff plate w ml mc

/-- C8: when an island's centroid coincides with its nearest point on the
plate's outer ring, `create_sprue_rectangle` returns the empty polygon (no
sprue), and the routed plate geometry is unaffected by any such degenerate
island: the output equals the plate minus the union of the non-empty sprue
polygons only. -/
theorem add_sprues_degenerate_island_skipped :
    ∀ (plate : PlateData) (sprue_width max_length : ℚ) (max_count : ℕ) (c : Pt),
      (plate.nearestExtPoint c = c →
        create_sprue_rectangle c (plate.nearestExtPoint c) sprue_width = .empty) ∧
      add_sprues plate sprue_width max_length max_count =
        plate.region \ unaryUnion
          ((spruesOf plate sprue_width max_length max_count).filter
            (fun s => !s.isEmptyPoly)) := by
  intro plate w ml mc c
  constructor
  · intro h
    rw [h]
    unfold create_sprue_rectangle
    rw [if_pos ((sqDistQ_eq_zero_iff c c).mpr rfl)]
  · rw [add_sprues_eq_diff, unaryUnion_eq, ← biUnion_filter_nonempty]

/-- Witness for C8 at a concrete plate whose nearest-point map is the
identity, so the single island is degenerate. -/
theorem add_sprues_degenerate_island_skipped_witness :
    (PlateData.mk ∅ [⟨true, false, ((0:ℚ), (0:ℚ))⟩] id).nearestExtPoint (0, 0) = (0, 0) ∧
    create_sprue_rectangle (0, 0)
      ((PlateData.mk ∅ [⟨true, false, ((0:ℚ), (0:ℚ))⟩] id).nearestExtPoint (0, 0)) 2 = .empty ∧
    add_sprues (PlateData.mk ∅ [⟨true, false, ((0:ℚ), (0:ℚ))⟩] id) 2 5 10 =
      (PlateData.mk ∅ [⟨true, false, ((0:ℚ), (0:ℚ))⟩] id).region \ unaryUnion
        ((spruesOf (PlateData.mk ∅ [⟨true, false, ((0:ℚ), (0:ℚ))⟩] id) 2 5 10).filter
          (fun s => !s.isEmptyPoly)) :=
  ⟨rfl,
   (add_sprues_degenerate_island_skipped
      (PlateData.mk ∅ [⟨true, false, ((0:ℚ), (0:ℚ))⟩] id) 2 5 10 (0, 0)).1 rfl,
   (add_sprues_degenerate_island_skipped
      (PlateData.mk ∅ [⟨true, false, ((0:ℚ), (0:ℚ))⟩] id) 2 5 10 (0, 0)).2⟩

/-- C9: `add_alignment_marks` never rejects a mark type: the embedded
dispatch is a total function, and for every mark-type string whose
lower-cased form is neither `"circular_hole"` nor `"circular hole"` all
four marks are crosshairs (the fall-through `else` branch). -/
theorem add_alignment_marks_fallback_crosshair :
    ∀ (bounds : ℚ × ℚ × ℚ × ℚ) (mark_type : String) (mark_size offset_from_edge : ℚ),
      strLower mark_type ≠ "circular_hole" → strLower mark_type ≠ "circular hole" →
      alignmentMarks bounds mark_type mark_size offset_from_edge =
        (markPositions bounds offset_from_edge).map (fun p =>
          MarkShape.cross
            (p.1 - mark_size / 2, p.2 - mark_size / 10,
              p.1 + mark_size / 2, p.2 + mark_size / 10)
            (p.1 - mark_size / 10, p.2 - mark_size / 2,
              p.1 + mark_size / 10, p.2 + mark_size / 2)) := by
  intro bounds mt ms off h1 h2
  unfold alignmentMarks
  apply List.map_congr_left
  intro p _
  simp [markFor, h1, h2]

/-- Witness for C9: the unrecognized mark type "Bogus" silently yields
crosshair marks at all four corners. -/
theorem add_alignment_marks_fallback_crosshair_witness :
    strLower "Bogus" ≠ "circular_hole" ∧ strLower "Bogus" ≠ "circular hole" ∧
    alignmentMarks (0, 0, 10, 10) "Bogus" 5 1 =
      (markPositions (0, 0, 10, 10) 1).map (fun p =>
        MarkShape.cross
          (p.1 - 5 / 2, p.2 - 5 / 10, p.1 + 5 / 2, p.2 + 5 / 10)
          (p.1 - 5 / 10, p.2 - 5 / 2, p.1 + 5 / 10, p.2 + 5 / 2)) :=
  ⟨by decide, by decide,
   add_alignment_marks_fallback_crosshair (0, 0, 10, 10) "Bogus" 5 1
     (by decide) (by decide)⟩

/-- C3: when the difference in `create_mask_plate` returns a MultiPolygon
(several disjoint pieces), the returned plate is the piece of maximal area
(Python's `max(..., key=area)`: the first maximal piece) and every other
piece is discarded; when that piece is valid it is returned unchanged. -/
theorem create_mask_plate_selects_largest_piece :
    ∀ {α : Type} (lib : GeomLib α) (geometry : α) (plate_margin clearance : ℚ)
      (ps : List α),
      lib.difference (plateOf lib geometry plate_margin)
          (bufferedOf lib geometry clearance) = .multi ps →
      ps ≠ [] →
      ∃ q, pyMax lib.area ps = some q ∧ q ∈ ps ∧
        (∀ r ∈ ps, lib.area r ≤ lib.area q) ∧
        create_mask_plate lib geometry plate_margin clearance = some (fixValid lib q) ∧
        (lib.is_valid q = true →
          create_mask_plate lib geometry plate_margin clearance = some q) := by
  intro α lib g pm c ps hdiff hne
  obtain ⟨q, hq⟩ := pyMax_isSome lib.area ps hne
  obtain ⟨hmem, hall⟩ := pyMax_spec lib.area ps q hq
  refine ⟨q, hq, hmem, hall, ?_, ?_⟩
  · unfold create_mask_plate
    rw [hdiff]
    change Option.map (fixValid lib) (pyMax lib.area ps) = _
    rw [hq]
    rfl
  · intro hv
    unfold create_mask_plate
    rw [hdiff]
    change Option.map (fixValid lib) (pyMax lib.area ps) = _
    rw [hq]
    simp [fixValid, hv]

/-- A concrete geometry library over `ℚ` whose difference yields a
three-piece MultiPolygon, used to witness the largest-piece selection. -/
def demoLib : GeomLib ℚ where
  bounds := fun _ => (0, 0, 0, 0)
  box := fun _ _ _ _ => 0
  buffer := fun a _ => a
  difference := fun _ _ => .multi [1, 3, 2]
  area := id
  is_valid := fun _ => true
  buffer0 := id

/-- Witness for C3 on `demoLib`: the piece of area 3 is selected. -/
theorem create_mask_plate_selects_largest_piece_witness :
    demoLib.difference (plateOf demoLib 0 1) (bufferedOf demoLib 0 0) =
      .multi [1, 3, 2] ∧
    ([1, 3, 2] : List ℚ) ≠ [] ∧
    (∃ q, pyMax demoLib.area [1, 3, 2] = some q ∧ q ∈ ([1, 3, 2] : List ℚ) ∧
      (∀ r ∈ ([1, 3, 2] : List ℚ), demoLib.area r ≤ demoLib.area q) ∧
      create_mask_plate demoLib 0 1 0 = some (fixValid demoLib q) ∧
      (demoLib.is_valid q = true → create_mask_plate demoLib 0 1 0 = some q)) :=
  ⟨rfl, by decide,
   create_mask_plate_selects_largest_piece demoLib 0 1 0 [1, 3, 2] rfl (by decide)⟩

/-- The mesh with no vertices and no faces: both structural checks fail,
yet `validate_mesh` reports only the first. -/
def emptyMesh : MeshData :=
  { vertices := [], faces := [], is_watertight := false
    degenerate_faces := none, volume := none }

/-- Counterexample to C6 as stated: on a mesh with no vertices AND no
faces (and not watertight), `validate_mesh` short-circuits and reports
only "Mesh has no vertices" — the failing no-faces and watertightness
checks are absent from the single reported message, so not all failing
checks are collected together. -/
theorem validate_mesh_shortcircuits_structural_checks :
    validate_mesh (some emptyMesh) = (false, "Mesh has no vertices") ∧
    emptyMesh.faces.length = 0 ∧
    emptyMesh.is_watertight = false :=
  ⟨rfl, rfl, rfl⟩

/-- C6 amended: the structural checks (null mesh, no vertices, no faces)
return immediately with a single message; once they pass, the four
remaining checks (watertightness, degenerate faces, non-finite vertex
values, non-positive volume of a watertight mesh) are all collected into
one issue list and reported together in a single result. -/
theorem validate_mesh_collects_nonstructural_issues :
    ∀ m : MeshData, m.vertices ≠ [] → m.faces ≠ [] →
      (m.is_watertight = false → "Mesh is not watertight" ∈ issuesList m) ∧
      (∀ mask, m.degenerate_faces = some mask → mask.any id = true →
        ("Mesh has " ++ toString (mask.count true) ++ " degenerate faces") ∈
          issuesList m) ∧
      (m.verticesFinite = false →
        "Mesh contains infinite or NaN vertex values" ∈ issuesList m) ∧
      (∀ v, m.volume = some v → m.is_watertight = true → v ≤ 0 →
        ("Mesh has invalid volume: " ++ toString v) ∈ issuesList m) ∧
      (issuesList m ≠ [] →
        validate_mesh (some m) = (false, String.intercalate "; " (issuesList m))) ∧
      (issuesList m = [] →
        validate_mesh (some m) = (true, "Mesh is valid and printable")) := by
  intro m hv hf
  have hvlen : ¬(m.vertices.length = 0) := by
    simpa [List.length_eq_zero] using hv
  have hflen : ¬(m.faces.length = 0) := by
    simpa [List.length_eq_zero] using hf
  refine ⟨?_, ?_, ?_, ?_, ?_, ?_⟩
  · intro hw
    simp [issuesList, hw]
  · intro mask hmask hany
    simp [issuesList, hmask, hany]
  · intro hfin
    simp [issuesList, hfin]
  · intro v hvol hw hle
    simp [issuesList, hvol, hw, hle]
  · intro hne
    simp only [validate_mesh, if_neg hvlen, if_neg hflen]
    rw [if_neg (by simpa [List.isEmpty_iff] using hne)]
  · intro hnil
    simp only [validate_mesh, if_neg hvlen, if_neg hflen]
    rw [if_pos (by simpa [List.isEmpty_iff] using hnil)]

/-- Witness for the amended C6: a one-vertex, one-face mesh that is not
watertight and has a NaN coordinate gets both issues collected into the
single reported message. -/
theorem validate_mesh_collects_nonstructural_issues_witness :
    ((MeshData.mk [(FVal.nan, FVal.fin 0, FVal.fin 0)] [(0, 0, 0)]
        false none none).vertices ≠ [] ∧
      (MeshData.mk [(FVal.nan, FVal.fin 0, FVal.fin 0)] [(0, 0, 0)]
        false none none).faces ≠ []) ∧
    "Mesh is not watertight" ∈
      issuesList (MeshData.mk [(FVal.nan, FVal.fin 0, FVal.fin 0)] [(0, 0, 0)]
        false none none) ∧
    "Mesh contains infinite or NaN vertex values" ∈
      issuesList (MeshData.mk [(FVal.nan, FVal.fin 0, FVal.fin 0)] [(0, 0, 0)]
        false none none) :=
  ⟨⟨by decide, by decide⟩,
   (validate_mesh_collects_nonstructural_issues _ (by decide) (by decide)).1 rfl,
   (validate_mesh_collects_nonstructural_issues _ (by decide) (by decide)).2.2.1 rfl⟩

/-- C7: `extrude_to_mesh` raises exactly for: invalid input region, empty
input region, non-positive thickness, or a failure of the underlying
extrusion/repair library calls; the first two raise the invalid-input
messages, the third the invalid-parameter message, the fourth the
extrusion-failure message; otherwise the mesh is returned. -/
theorem extrude_to_mesh_error_contract :
    ∀ (extrudeLib : Geom2D → ℚ → Except String MeshData)
      (repairSeq : MeshData → Except String MeshData) (g : Geom2D) (t : ℚ),
      ((∃ e, extrude_to_mesh extrudeLib repairSeq g t = .error e) ↔
        (g.is_valid = false ∨ g.is_empty = true ∨ t ≤ 0 ∨
          ∃ e', extrudeTry extrudeLib repairSeq g t = .error e')) ∧
      (g.is_valid = false →
        extrude_to_mesh extrudeLib repairSeq g t = .error "Input geometry is not valid") ∧
      (g.is_valid = true → g.is_empty = true →
        extrude_to_mesh extrudeLib repairSeq g t = .error "Input geometry is empty") ∧
      (g.is_valid = true → g.is_empty = false → t ≤ 0 →
        extrude_to_mesh extrudeLib repairSeq g t = .error "Thickness must be positive") ∧
      (g.is_valid = true → g.is_empty = false → ¬(t ≤ 0) →
        (∀ e', extrudeTry extrudeLib repairSeq g t = .error e' →
          extrude_to_mesh extrudeLib repairSeq g t =
            .error ("Failed to extrude geometry: " ++ e')) ∧
        (∀ m, extrudeTry extrudeLib repairSeq g t = .ok m →
          extrude_to_mesh extrudeLib repairSeq g t = .ok m)) := by
  intro lib rep g t
  obtain ⟨gv, ge⟩ := g
  cases gv with
  | false =>
    have hE : extrude_to_mesh lib rep ⟨false, ge⟩ t = .error "Input geometry is not valid" := rfl
    refine ⟨⟨fun _ => Or.inl rfl, fun _ => ⟨_, hE⟩⟩, fun _ => hE, ?_, ?_, ?_⟩
    · intro h; cases h
    · intro h; cases h
    · intro h; cases h
  | true =>
    cases ge with
    | true =>
      have hE : extrude_to_mesh lib rep ⟨true, true⟩ t = .error "Input geometry is empty" := rfl
      refine ⟨⟨fun _ => Or.inr (Or.inl rfl), fun _ => ⟨_, hE⟩⟩, ?_, fun _ _ => hE, ?_, ?_⟩
      · intro h; cases h
      · intro _ h; cases h
      · intro _ h; cases h
    | false =>
      by_cases ht : t ≤ 0
      · have hE : extrude_to_mesh lib rep ⟨true, false⟩ t = .error "Thickness must be positive" := by
          simp [extrude_to_mesh, ht]
        refine ⟨⟨fun _ => Or.inr (Or.inr (Or.inl ht)), fun _ => ⟨_, hE⟩⟩,
          ?_, ?_, fun _ _ _ => hE, fun _ _ hns => absurd ht hns⟩
        · intro h; cases h
        · intro _ h; cases h
      · refine ⟨?_, ?_, ?_, fun _ _ h => absurd h ht, fun _ _ _ => ⟨?_, ?_⟩⟩
        · cases hE : extrudeTry lib rep ⟨true, false⟩ t with
          | error e =>
            have hQ : extrude_to_mesh lib rep ⟨true, false⟩ t =
                .error ("Failed to extrude geometry: " ++ e) := by
              simp [extrude_to_mesh, ht, hE]
            exact ⟨fun _ => Or.inr (Or.inr (Or.inr ⟨e, rfl⟩)), fun _ => ⟨_, hQ⟩⟩
          | ok m =>
            have hQ : extrude_to_mesh lib rep ⟨true, false⟩ t = .ok m := by
              simp [extrude_to_mesh, ht, hE]
            constructor
            · rintro ⟨e, he⟩
              rw [hQ] at he
              cases he
            · rintro (h | h | h | ⟨e2, he2⟩)
              · cases h
              · cases h
              · exact absurd h ht
              · cases he2
        · intro h; cases h
        · intro _ h; cases h
        · intro e2 he2
          simp [extrude_to_mesh, ht, he2]
        · intro m hm
          simp [extrude_to_mesh, ht, hm]

/-- Witness for C7: an invalid input geometry raises the invalid-input
message, and with valid non-empty geometry, positive thickness and a
failing extrusion library the failure is re-raised with the extrusion
prefix. -/
theorem extrude_to_mesh_error_contract_witness :
    (Geom2D.mk false false).is_valid = false ∧
    extrude_to_mesh (fun _ _ => .error "tri failure") (fun m => .ok m)
      (Geom2D.mk false false) 1 = .error "Input geometry is not valid" ∧
    (Geom2D.mk true false).is_valid = true ∧ (Geom2D.mk true false).is_empty = false ∧
    ¬((1 : ℚ) ≤ 0) ∧
    extrudeTry (fun _ _ => .error "tri failure") (fun m => .ok m)
      (Geom2D.mk true false) 1 = .error "tri failure" ∧
    extrude_to_mesh (fun _ _ => .error "tri failure") (fun m => .ok m)
      (Geom2D.mk true false) 1 =
        .error ("Failed to extrude geometry: " ++ "tri failure") :=
  ⟨rfl,
   (extrude_to_mesh_error_contract (fun _ _ => .error "tri failure") (fun m => .ok m)
      (Geom2D.mk false false) 1).2.1 rfl,
   rfl, rfl, by norm_num, rfl,
   ((extrude_to_mesh_error_contract (fun _ _ => .error "tri failure") (fun m => .ok m)
      (Geom2D.mk true false) 1).2.2.2.2 rfl rfl (by norm_num)).1 "tri failure" rfl⟩

/-- C10: `export_stl` never raises because of a failed validation — every
raised error wraps an error of the underlying STL write on the
(possibly repaired) mesh; when validation fails even after repair only a
warning is emitted; and a successful write returns normally. -/
theorem export_stl_never_raises_on_validation :
    ∀ (repairFn : MeshData → MeshData) (exportLib : MeshData → Except String Unit)
      (m : MeshData),
      (∀ e, (export_stl repairFn exportLib m).result = .error e →
        ∃ e', exportLib (if (validate_mesh (some m)).1 then m else repairFn m) =
            .error e' ∧ e = "Failed to export STL: " ++ e') ∧
      ((validate_mesh (some m)).1 = false →
        (validate_mesh (some (repairFn m))).1 = false →
        (export_stl repairFn exportLib m).warnings =
          ["Warning: " ++ (validate_mesh (some (repairFn m))).2]) ∧
      (exportLib (if (validate_mesh (some m)).1 then m else repairFn m) = .ok () →
        (export_stl repairFn exportLib m).result = .ok ()) := by
  intro repairFn exportLib m
  refine ⟨?_, ?_, ?_⟩
  · intro e he
    by_cases hv : (validate_mesh (some m)).1
    · rw [if_pos hv]
      cases hE : exportLib m with
      | error e' =>
        refine ⟨e', rfl, ?_⟩
        simp only [export_stl, hv, if_true, hE] at he
        exact (Except.error.injEq _ _).mp he.symm
      | ok u =>
        simp only [export_stl, hv, if_true, hE] at he
        cases he
    · rw [if_neg hv]
      cases hE : exportLib (repairFn m) with
      | error e' =>
        refine ⟨e', rfl, ?_⟩
        simp only [export_stl, hv, if_false, Bool.false_eq_true, hE] at he
        exact (Except.error.injEq _ _).mp he.symm
      | ok u =>
        simp only [export_stl, hv, if_false, Bool.false_eq_true, hE] at he
        cases he
  · intro hv hv2
    simp [export_stl, hv, hv2]
  · intro hE
    by_cases hv : (validate_mesh (some m)).1
    · rw [if_pos hv] at hE
      simp [export_stl, hv, hE]
    · rw [if_neg hv] at hE
      simp [export_stl, hv, hE]

/-- Witness for C10: on the invalid `emptyMesh` with an identity repair
(validation still failing) and a failing write, the error is the wrapped
write error, and the warning carries the re-validation message. -/
theorem export_stl_never_raises_on_validation_witness :
    (validate_mesh (some emptyMesh)).1 = false ∧
    (validate_mesh (some (id emptyMesh))).1 = false ∧
    (export_stl id (fun _ => .error "disk full") emptyMesh).result =
      .error ("Failed to export STL: " ++ "disk full") ∧
    (∃ e', (fun (_ : MeshData) => (Except.error "disk full" : Except String Unit))
        (if (validate_mesh (some emptyMesh)).1 then emptyMesh else id emptyMesh) =
          .error e' ∧
      ("Failed to export STL: " ++ "disk full") = "Failed to export STL: " ++ e') ∧
    (export_stl id (fun _ => .error "disk full") emptyMesh).warnings =
      ["Warning: " ++ (validate_mesh (some (id emptyMesh))).2] :=
  ⟨rfl, rfl, rfl,
   (export_stl_never_raises_on_validation id (fun _ => .error "disk full")
      emptyMesh).1 ("Failed to export STL: " ++ "disk full") rfl,
   (export_stl_never_raises_on_validation id (fun _ => .error "disk full")
      emptyMesh).2.1 rfl rfl⟩

/-! ## Claim C4: the plate's outer boundary -/

/-- A positive buffer of a geometry inside a bounding box stays inside the
box expanded by the buffer distance. -/
lemma bufferSet_subset_box {G : Set R2} {minx miny maxx maxy c : ℝ}
    (hG : G ⊆ boxSet minx miny maxx maxy) (hc : 0 ≤ c) :
    bufferSet G c ⊆ boxSet (minx - c) (miny - c) (maxx + c) (maxy + c) := by
  rintro p ⟨q, hq, hd⟩
  obtain ⟨⟨hq1, hq2⟩, hq3, hq4⟩ := hG hq
  have h1 : (p.1 - q.1) ^ 2 ≤ c ^ 2 := by nlinarith [sq_nonneg (p.2 - q.2)]
  have h2 : (p.2 - q.2) ^ 2 ≤ c ^ 2 := by nlinarith [sq_nonneg (p.1 - q.1)]
  refine ⟨⟨?_, ?_⟩, ?_, ?_⟩
  · nlinarith
  · nlinarith
  · nlinarith
  · nlinarith

/-- The interior of a closed box is the open box. -/
lemma interior_boxSet (x0 y0 x1 y1 : ℝ) :
    interior (boxSet x0 y0 x1 y1) = Set.Ioo x0 x1 ×ˢ Set.Ioo y0 y1 := by
  unfold boxSet
  rw [interior_prod_eq, interior_Icc, interior_Icc]

/-- A closed box is closed. -/
lemma isClosed_boxSet (x0 y0 x1 y1 : ℝ) : IsClosed (boxSet x0 y0 x1 y1) :=
  IsClosed.prod isClosed_Icc isClosed_Icc

/-- C4 amended: provided the clearance is smaller than the margin (so the
buffered artwork stays strictly inside the expanded bounding box — the
counterexample shows the claim fails without this), the outer boundary of
the 2D difference computed by `create_mask_plate` is exactly the
bounding box of the artwork expanded by `margin` on every side: the plate
lies inside that expanded box and the entire boundary of the expanded box
is on the plate's boundary.  (When that difference splits into several
pieces the source additionally keeps only the largest piece — see the C3
theorem.) -/
theorem create_mask_plate_outer_boundary_eq_expanded_bbox :
    ∀ (G : Set R2) (minx miny maxx maxy margin clearance : ℝ),
      G ⊆ boxSet minx miny maxx maxy →
      0 < margin → clearance < margin →
      create_mask_plate_region G (minx, miny, maxx, maxy) margin clearance ⊆
        boxSet (minx - margin) (miny - margin) (maxx + margin) (maxy + margin) ∧
      frontier (boxSet (minx - margin) (miny - margin)
          (maxx + margin) (maxy + margin)) ⊆
        frontier (create_mask_plate_region G (minx, miny, maxx, maxy)
          margin clearance) := by
  intro G minx miny maxx maxy margin clearance hG hm hcm
  have hmask : create_mask_plate_region G (minx, miny, maxx, maxy) margin clearance =
      boxSet (minx - margin) (miny - margin) (maxx + margin) (maxy + margin) \
        (if 0 < clearance then bufferSet G clearance else G) := rfl
  constructor
  · rw [hmask]; exact Set.diff_subset
  · intro p hp
    rw [← closure_diff_interior] at hp
    obtain ⟨hpc, hpint⟩ := hp
    have hpbox : p ∈ boxSet (minx - margin) (miny - margin)
        (maxx + margin) (maxy + margin) := by
      rwa [(isClosed_boxSet _ _ _ _).closure_eq] at hpc
    obtain ⟨⟨hx1, hx2⟩, hy1, hy2⟩ := hpbox
    have hbound : p.1 = minx - margin ∨ p.1 = maxx + margin ∨
        p.2 = miny - margin ∨ p.2 = maxy + margin := by
      by_contra hno
      push_neg at hno
      obtain ⟨hn1, hn2, hn3, hn4⟩ := hno
      exact hpint (by
        rw [interior_boxSet]
        exact ⟨⟨lt_of_le_of_ne hx1 (Ne.symm hn1), lt_of_le_of_ne hx2 hn2⟩,
          ⟨lt_of_le_of_ne hy1 (Ne.symm hn3), lt_of_le_of_ne hy2 hn4⟩⟩)
    have hnotbuf : p ∉ (if 0 < clearance then bufferSet G clearance else G) := by
      by_cases hc : 0 < clearance
      · rw [if_pos hc]
        intro hpB
        obtain ⟨⟨hb1, hb2⟩, hb3, hb4⟩ := bufferSet_subset_box hG (le_of_lt hc) hpB
        rcases hbound with h | h | h | h
        · rw [h] at hb1; linarith
        · rw [h] at hb2; linarith
        · rw [h] at hb3; linarith
        · rw [h] at hb4; linarith
      · rw [if_neg hc]
        intro hpG
        obtain ⟨⟨hb1, hb2⟩, hb3, hb4⟩ := hG hpG
        rcases hbound with h | h | h | h
        · rw [h] at hb1; linarith
        · rw [h] at hb2; linarith
        · rw [h] at hb3; linarith
        · rw [h] at hb4; linarith
    have hpmask : p ∈ create_mask_plate_region G (minx, miny, maxx, maxy)
        margin clearance := by
      rw [hmask]
      exact ⟨⟨⟨hx1, hx2⟩, hy1, hy2⟩, hnotbuf⟩
    rw [← closure_diff_interior]
    refine ⟨subset_closure hpmask, fun hint => hpint ?_⟩
    have hsub : create_mask_plate_region G (minx, miny, maxx, maxy)
        margin clearance ⊆ boxSet (minx - margin) (miny - margin)
          (maxx + margin) (maxy + margin) := by
      rw [hmask]; exact Set.diff_subset
    exact interior_mono hsub hint

/-- Witness for the amended C4 on a one-point artwork with margin 1 and
clearance 1/2. -/
theorem create_mask_plate_outer_boundary_eq_expanded_bbox_witness :
    ({((0:ℝ), (0:ℝ))} : Set R2) ⊆ boxSet 0 0 0 0 ∧ (0:ℝ) < 1 ∧ (1/2 : ℝ) < 1 ∧
    (create_mask_plate_region {((0:ℝ), (0:ℝ))} (0, 0, 0, 0) 1 (1/2) ⊆
      boxSet (0 - 1) (0 - 1) (0 + 1) (0 + 1) ∧
    frontier (boxSet (0 - 1) (0 - 1) (0 + 1) (0 + 1)) ⊆
      frontier (create_mask_plate_region {((0:ℝ), (0:ℝ))} (0, 0, 0, 0) 1 (1/2))) :=
  ⟨by
    intro p hp
    rw [Set.mem_singleton_iff] at hp
    subst hp
    exact ⟨⟨le_refl _, le_refl _⟩, le_refl _, le_refl _⟩,
   by norm_num, by norm_num,
   create_mask_plate_outer_boundary_eq_expanded_bbox {((0:ℝ), (0:ℝ))} 0 0 0 0 1 (1/2)
     (by
       intro p hp
       rw [Set.mem_singleton_iff] at hp
       subst hp
       exact ⟨⟨le_refl _, le_refl _⟩, le_refl _, le_refl _⟩)
     (by norm_num) (by norm_num)⟩

/-- Counterexample to C4 as stated: for the artwork `[10,12] × [0,10]`
with margin 1 and clearance 3 (clearance exceeding the margin), the
buffered artwork covers the whole expanded box, the difference is empty,
and so the plate's outer boundary (the frontier of the empty set) is
empty — while the margin-expanded bounding box `[9,13] × [-1,11]` has a
non-empty boundary (it contains the corner (9,-1)).  The outer boundary
therefore does not equal the expanded bounding box for every input and
margin. -/
theorem create_mask_plate_outer_boundary_counterexample :
    create_mask_plate_region (boxSet 10 0 12 10) (10, 0, 12, 10) 1 3 = ∅ ∧
    frontier (create_mask_plate_region (boxSet 10 0 12 10) (10, 0, 12, 10) 1 3) = ∅ ∧
    ((9:ℝ), (-1:ℝ)) ∈ frontier (boxSet 9 (-1) 13 11) := by
  have hempty : create_mask_plate_region (boxSet 10 0 12 10) (10, 0, 12, 10) 1 3 = ∅ := by
    rw [Set.eq_empty_iff_forall_not_mem]
    rintro p ⟨hpbox, hnb⟩
    apply hnb
    have h3 : (0:ℝ) < 3 := by norm_num
    rw [if_pos h3]
    obtain ⟨⟨h9, h13⟩, hm1, h11⟩ := hpbox
    norm_num at h9 h13 hm1 h11
    refine ⟨(max 10 (min p.1 12), max 0 (min p.2 10)), ⟨⟨le_max_left _ _, ?_⟩,
      le_max_left _ _, ?_⟩, ?_⟩
    · exact max_le (by norm_num) (min_le_right _ _)
    · exact max_le (by norm_num) (min_le_right _ _)
    · have hx : (p.1 - max 10 (min p.1 12)) ^ 2 ≤ 1 := by
        rcases le_total p.1 10 with h | h
        · rw [min_eq_left (by linarith : p.1 ≤ 12), max_eq_left h]
          nlinarith
        · rcases le_total p.1 12 with h2 | h2
          · rw [min_eq_left h2, max_eq_right h]
            norm_num
          · rw [min_eq_right h2, show max (10:ℝ) 12 = 12 by norm_num]
            have : p.1 ≤ 13 := by linarith
            nlinarith
      have hy : (p.2 - max 0 (min p.2 10)) ^ 2 ≤ 1 := by
        rcases le_total p.2 0 with h | h
        · rw [min_eq_left (by linarith : p.2 ≤ 10), max_eq_left h]
          have : (-1:ℝ) ≤ p.2 := by linarith
          nlinarith
        · rcases le_total p.2 10 with h2 | h2
          · rw [min_eq_left h2, max_eq_right h]
            norm_num
          · rw [min_eq_right h2, show max (0:ℝ) 10 = 10 by norm_num]
            have : p.2 ≤ 11 := by linarith
            nlinarith
      nlinarith
  refine ⟨hempty, by rw [hempty]; simp, ?_⟩
  rw [← closure_diff_interior]
  constructor
  · exact subset_closure ⟨⟨le_refl _, by norm_num⟩, le_refl _, by norm_num⟩
  · rw [interior_boxSet]
    rintro ⟨⟨h, _⟩, _⟩
    exact lt_irrefl _ h

/-! ## Claim C5: routing never increases the hole count

`holesOf` counts holes semantically: the bounded connected components of
the complement.  Subtracting the sprues enlarges the complement by the
sprue regions; each non-empty sprue is connected and touches the closure
of the unbounded outside component (its far end lies on the plate's outer
ring), so no new bounded complement component can appear: every hole of
the routed plate contains a hole of the original plate. -/

/-- The dot product against a fixed vector is affine in the moving point. -/
lemma dotR_combo (x y P v : R2) (a b : ℝ) (hab : a + b = 1) :
    dotR (a • x + b • y - P) v = a * dotR (x - P) v + b * dotR (y - P) v := by
  have hb : b = 1 - a := by linarith
  subst hb
  obtain ⟨x1, x2⟩ := x
  obtain ⟨y1, y2⟩ := y
  obtain ⟨q1, q2⟩ := P
  obtain ⟨v1, v2⟩ := v
  simp only [dotR, Prod.smul_mk, smul_eq_mul, Prod.mk_add_mk, Prod.mk_sub_mk]
  ring

/-- The sprue rectangle's point set is convex. -/
lemma sprueRect_convex (p1 p2 : Pt) (w : ℚ) :
    Convex ℝ (SpruePoly.rect p1 p2 w).region := by
  intro x hx y hy a b ha hb hab
  simp only [SpruePoly.region, Set.mem_setOf_eq] at hx hy ⊢
  obtain ⟨hx1, hx2, hx3⟩ := hx
  obtain ⟨hy1, hy2, hy3⟩ := hy
  rw [dotR_combo x y (toR2 p1) (toR2 p2 - toR2 p1) a b hab,
    dotR_combo x y (toR2 p1) (perpR (toR2 p2 - toR2 p1)) a b hab]
  refine ⟨add_nonneg (mul_nonneg ha hx1) (mul_nonneg hb hy1), ?_, ?_⟩
  · have h1 := mul_le_mul_of_nonneg_left hx2 ha
    have h2 := mul_le_mul_of_nonneg_left hy2 hb
    nlinarith
  · have h1 := mul_le_mul_of_nonneg_left hx3 ha
    have h2 := mul_le_mul_of_nonneg_left hy3 hb
    have h3 := mul_nonneg (mul_nonneg ha hb)
      (sq_nonneg (dotR (x - toR2 p1) (perpR (toR2 p2 - toR2 p1)) -
        dotR (y - toR2 p1) (perpR (toR2 p2 - toR2 p1))))
    have hid : (a * dotR (x - toR2 p1) (perpR (toR2 p2 - toR2 p1)) +
          b * dotR (y - toR2 p1) (perpR (toR2 p2 - toR2 p1))) ^ 2 +
        a * b * (dotR (x - toR2 p1) (perpR (toR2 p2 - toR2 p1)) -
          dotR (y - toR2 p1) (perpR (toR2 p2 - toR2 p1))) ^ 2 =
        (a + b) * (a * dotR (x - toR2 p1) (perpR (toR2 p2 - toR2 p1)) ^ 2 +
          b * dotR (y - toR2 p1) (perpR (toR2 p2 - toR2 p1)) ^ 2) := by
      ring
    rw [hab, one_mul] at hid
    have hK : a * ((↑w / 2) ^ 2 * dotR (toR2 p2 - toR2 p1) (toR2 p2 - toR2 p1)) +
        b * ((↑w / 2) ^ 2 * dotR (toR2 p2 - toR2 p1) (toR2 p2 - toR2 p1)) =
        (↑w / 2) ^ 2 * dotR (toR2 p2 - toR2 p1) (toR2 p2 - toR2 p1) := by
      have : a * ((↑w / 2) ^ 2 * dotR (toR2 p2 - toR2 p1) (toR2 p2 - toR2 p1)) +
          b * ((↑w / 2) ^ 2 * dotR (toR2 p2 - toR2 p1) (toR2 p2 - toR2 p1)) =
          (a + b) * ((↑w / 2) ^ 2 * dotR (toR2 p2 - toR2 p1) (toR2 p2 - toR2 p1)) := by
        ring
      rw [this, hab, one_mul]
    linarith

/-- The dot product of a vector with itself is non-negative. -/
lemma dotR_self_nonneg (v : R2) : 0 ≤ dotR v v :=
  add_nonneg (mul_self_nonneg v.1) (mul_self_nonneg v.2)

/-- The far endpoint `p2` (the point on the plate's outer ring) belongs to
the sprue rectangle. -/
lemma mem_sprueRect_endpoint (p1 p2 : Pt) (w : ℚ) :
    toR2 p2 ∈ (SpruePoly.rect p1 p2 w).region := by
  simp only [SpruePoly.region, Set.mem_setOf_eq]
  have hz : dotR (toR2 p2 - toR2 p1) (perpR (toR2 p2 - toR2 p1)) = 0 := by
    simp only [dotR, perpR]
    ring
  refine ⟨dotR_self_nonneg _, le_refl _, ?_⟩
  rw [hz]
  have : (0:ℝ) ^ 2 = 0 := by norm_num
  rw [this]
  exact mul_nonneg (sq_nonneg _) (dotR_self_nonneg _)

/-- Every sprue in the list built by `add_sprues` comes from a detected
island: it is `create_sprue_rectangle` on the island's centroid and the
centroid's nearest point on the outer ring. -/
lemma spruesOf_mem {plate : PlateData} {w ml : ℚ} {mc : ℕ} {s : SpruePoly}
    (hs : s ∈ spruesOf plate w ml mc) :
    ∃ r ∈ detect_islands plate.interiors,
      s = create_sprue_rectangle r.centroid (plate.nearestExtPoint r.centroid) w := by
  rw [spruesOf, sprueLoop_eq] at hs
  obtain ⟨r, hr, rfl⟩ := List.mem_map.mp hs
  exact ⟨r, List.take_subset _ _ (List.mem_of_mem_filter hr), rfl⟩

/-- The real plane is unbounded. -/
lemma not_isBounded_univ_R2 : ¬ Bornology.IsBounded (Set.univ : Set R2) := by
  intro h
  obtain ⟨r, hr⟩ := (Metric.isBounded_iff_subset_closedBall ((0:ℝ), (0:ℝ))).mp h
  have h1 : ((|r| + 1, 0) : R2) ∈ Metric.closedBall ((0:ℝ), (0:ℝ)) r :=
    hr (Set.mem_univ _)
  rw [Metric.mem_closedBall, Prod.dist_eq] at h1
  have h2 : dist (|r| + 1 : ℝ) (0:ℝ) = |r| + 1 := by
    rw [Real.dist_eq, sub_zero]
    exact abs_of_nonneg (by positivity)
  have h3 : dist (0:ℝ) (0:ℝ) = 0 := dist_self 0
  rw [h2, h3] at h1
  have h4 : |r| + 1 ≤ r := le_trans (le_max_left _ _) h1
  have h5 := le_abs_self r
  linarith

/-- Key topological lemma: subtracting a list of sprue regions — each
empty or connected-and-touching the closure of the unbounded outside
component — cannot create new holes: the bounded complement components of
the difference inject into those of the original region. -/
lemma holesOf_diff_injection (A : Set R2) (sprues : List SpruePoly)
    (x₀ : R2) (_hx₀ : x₀ ∈ Aᶜ)
    (hUnb : ¬ Bornology.IsBounded (connectedComponentIn Aᶜ x₀))
    (hconn : ∀ s ∈ sprues, IsPreconnected (SpruePoly.region s))
    (htouch : ∀ s ∈ sprues, SpruePoly.region s = ∅ ∨
      ∃ z ∈ SpruePoly.region s, z ∈ closure (connectedComponentIn Aᶜ x₀)) :
    ∃ f : holesOf (A \ ⋃ s ∈ sprues, SpruePoly.region s) → holesOf A,
      Function.Injective f := by
  classical
  have hcompl : (A \ ⋃ s ∈ sprues, SpruePoly.region s)ᶜ =
      Aᶜ ∪ ⋃ s ∈ sprues, SpruePoly.region s := by
    rw [Set.diff_eq, Set.compl_inter, compl_compl]
  have hAF : Aᶜ ⊆ (A \ ⋃ s ∈ sprues, SpruePoly.region s)ᶜ := by
    rw [hcompl]; exact Set.subset_union_left
  have hBF : (⋃ s ∈ sprues, SpruePoly.region s) ⊆
      (A \ ⋃ s ∈ sprues, SpruePoly.region s)ᶜ := by
    rw [hcompl]; exact Set.subset_union_right
  have hKey : ∀ C, C ∈ holesOf (A \ ⋃ s ∈ sprues, SpruePoly.region s) →
      ∃ D, D ∈ holesOf A ∧ D ⊆ C ∧ D.Nonempty := by
    intro C hC
    obtain ⟨⟨x, hxF, hCeq⟩, hCb⟩ := hC
    have hxC : x ∈ C := hCeq ▸ mem_connectedComponentIn hxF
    have hCF : C ⊆ (A \ ⋃ s ∈ sprues, SpruePoly.region s)ᶜ := by
      rw [hCeq]; exact connectedComponentIn_subset _ _
    have hCA : (C ∩ Aᶜ).Nonempty := by
      by_contra hemp
      rw [Set.not_nonempty_iff_eq_empty] at hemp
      have hCB : C ⊆ ⋃ s ∈ sprues, SpruePoly.region s := by
        intro z hz
        have hzF := hCF hz
        rw [hcompl] at hzF
        rcases hzF with h | h
        · exfalso
          have hmem : z ∈ C ∩ Aᶜ := ⟨hz, h⟩
          rw [hemp] at hmem
          exact Set.not_mem_empty z hmem
        · exact h
      obtain ⟨s, hs, hxs⟩ : ∃ s ∈ sprues, x ∈ SpruePoly.region s := by
        have := hCB hxC
        simpa using this
      have hsne : SpruePoly.region s ≠ ∅ := by
        intro he
        rw [he] at hxs
        exact Set.not_mem_empty x hxs
      obtain ⟨z, hzs, hzU⟩ := (htouch s hs).resolve_left hsne
      have hsF : SpruePoly.region s ⊆
          (A \ ⋃ t ∈ sprues, SpruePoly.region t)ᶜ :=
        fun y hy => hBF (Set.mem_biUnion hs hy)
      have hsC : SpruePoly.region s ⊆ C := by
        rw [hCeq]
        exact (hconn s hs).subset_connectedComponentIn hxs hsF
      have hzC : z ∈ C := hsC hzs
      have hUF : connectedComponentIn Aᶜ x₀ ⊆
          (A \ ⋃ t ∈ sprues, SpruePoly.region t)ᶜ :=
        (connectedComponentIn_subset _ _).trans hAF
      have hTpre : IsPreconnected (insert z (connectedComponentIn Aᶜ x₀)) := by
        refine IsPreconnected.subset_closure isPreconnected_connectedComponentIn
          (Set.subset_insert z _) ?_
        intro y hy
        rcases Set.mem_insert_iff.mp hy with h | h
        · rw [h]; exact hzU
        · exact subset_closure h
      have hTF : insert z (connectedComponentIn Aᶜ x₀) ⊆
          (A \ ⋃ t ∈ sprues, SpruePoly.region t)ᶜ :=
        Set.insert_subset (hsF hzs) hUF
      have hTC : insert z (connectedComponentIn Aᶜ x₀) ⊆ C := by
        have h1 : insert z (connectedComponentIn Aᶜ x₀) ⊆
            connectedComponentIn ((A \ ⋃ t ∈ sprues, SpruePoly.region t)ᶜ) z :=
          hTpre.subset_connectedComponentIn (Set.mem_insert z _) hTF
        have h2 : connectedComponentIn
            ((A \ ⋃ t ∈ sprues, SpruePoly.region t)ᶜ) z = C := by
          rw [hCeq]
          exact (connectedComponentIn_eq (hCeq ▸ hzC)).symm
        rw [← h2]
        exact h1
      have hUC : connectedComponentIn Aᶜ x₀ ⊆ C :=
        (Set.subset_insert z _).trans hTC
      exact hUnb (hCb.subset hUC)
    obtain ⟨y, hyC, hyA⟩ := hCA
    have hDC : connectedComponentIn Aᶜ y ⊆ C := by
      have h1 : connectedComponentIn Aᶜ y ⊆
          connectedComponentIn ((A \ ⋃ t ∈ sprues, SpruePoly.region t)ᶜ) y :=
        isPreconnected_connectedComponentIn.subset_connectedComponentIn
          (mem_connectedComponentIn hyA)
          ((connectedComponentIn_subset _ _).trans hAF)
      have h2 : connectedComponentIn
          ((A \ ⋃ t ∈ sprues, SpruePoly.region t)ᶜ) y = C := by
        rw [hCeq]
        exact (connectedComponentIn_eq (hCeq ▸ hyC)).symm
      rw [h2] at h1
      exact h1
    exact ⟨connectedComponentIn Aᶜ y, ⟨⟨y, hyA, rfl⟩, hCb.subset hDC⟩, hDC,
      ⟨y, mem_connectedComponentIn hyA⟩⟩
  choose D hDmem hDsub hDne using hKey
  refine ⟨fun C => ⟨D C.1 C.2, hDmem C.1 C.2⟩, ?_⟩
  rintro ⟨C1, hC1⟩ ⟨C2, hC2⟩ hf
  simp only [Subtype.mk.injEq] at hf
  obtain ⟨z, hz⟩ := hDne C1 hC1
  have hz1 : z ∈ C1 := hDsub C1 hC1 hz
  have hz2 : z ∈ C2 := hDsub C2 hC2 (hf ▸ hz)
  obtain ⟨⟨x1, hx1, hCeq1⟩, _⟩ := hC1
  obtain ⟨⟨x2, hx2, hCeq2⟩, _⟩ := hC2
  apply Subtype.ext
  show C1 = C2
  have e1 : C1 = connectedComponentIn
      ((A \ ⋃ s ∈ sprues, SpruePoly.region s)ᶜ) z := by
    rw [hCeq1]
    exact connectedComponentIn_eq (hCeq1 ▸ hz1)
  have e2 : C2 = connectedComponentIn
      ((A \ ⋃ s ∈ sprues, SpruePoly.region s)ᶜ) z := by
    rw [hCeq2]
    exact connectedComponentIn_eq (hCeq2 ▸ hz2)
  rw [e1, e2]

/-- The connected component of the origin in the complement of the empty
plane region is unbounded. -/
lemma not_isBounded_component_in_empty_compl :
    ¬ Bornology.IsBounded (connectedComponentIn ((∅ : Set R2))ᶜ ((0:ℝ), (0:ℝ))) := by
  intro h
  have hsub : (Set.univ : Set R2) ⊆ connectedComponentIn ((∅ : Set R2))ᶜ ((0:ℝ), (0:ℝ)) := by
    refine isPreconnected_univ.subset_connectedComponentIn (Set.mem_univ _) ?_
    intro p _
    exact Set.not_mem_empty p
  exact not_isBounded_univ_R2 (h.subset hsub)

/-- C5: routing never increases the hole count.  Holes are the bounded
connected components of the region's complement; for every plate whose
nearest-boundary-point map lands in the closure of the unbounded outside
component (true of a valid plate polygon, whose outer ring adjoins the
outside), the holes of the routed plate inject into the holes of the
input plate, so `holeCount(after) ≤ holeCount(before)`. -/
theorem add_sprues_never_increases_hole_count :
    ∀ (plate : PlateData) (sprue_width max_length : ℚ) (max_count : ℕ) (x₀ : R2),
      x₀ ∈ (plate.region)ᶜ →
      ¬ Bornology.IsBounded (connectedComponentIn (plate.region)ᶜ x₀) →
      (∀ r ∈ detect_islands plate.interiors,
        toR2 (plate.nearestExtPoint r.centroid) ∈
          closure (connectedComponentIn (plate.region)ᶜ x₀)) →
      ∃ f : holesOf (add_sprues plate sprue_width max_length max_count) →
          holesOf plate.region, Function.Injective f := by
  intro plate w ml mc x₀ hx₀ hUnb hNear
  rw [add_sprues_eq_diff]
  refine holesOf_diff_injection plate.region (spruesOf plate w ml mc) x₀ hx₀ hUnb ?_ ?_
  · intro s hs
    obtain ⟨r, _, rfl⟩ := spruesOf_mem hs
    unfold create_sprue_rectangle
    by_cases h : sqDistQ r.centroid (plate.nearestExtPoint r.centroid) = 0
    · rw [if_pos h]
      exact isPreconnected_empty
    · rw [if_neg h]
      exact (sprueRect_convex _ _ _).isPreconnected
  · intro s hs
    obtain ⟨r, hr, rfl⟩ := spruesOf_mem hs
    unfold create_sprue_rectangle
    by_cases h : sqDistQ r.centroid (plate.nearestExtPoint r.centroid) = 0
    · rw [if_pos h]
      exact Or.inl rfl
    · rw [if_neg h]
      exact Or.inr ⟨toR2 (plate.nearestExtPoint r.centroid),
        mem_sprueRect_endpoint _ _ _, hNear r hr⟩

/-- Witness for C5 on the empty plate with no islands: the hypotheses
hold (the outside component is the whole unbounded plane, and the
island condition is vacuous), and the injection exists. -/
theorem add_sprues_never_increases_hole_count_witness :
    (((0:ℝ), (0:ℝ)) ∈ ((PlateData.mk ∅ [] id).region)ᶜ) ∧
    ¬ Bornology.IsBounded
      (connectedComponentIn ((PlateData.mk ∅ [] id).region)ᶜ ((0:ℝ), (0:ℝ))) ∧
    (∀ r ∈ detect_islands (PlateData.mk ∅ [] id).interiors,
      toR2 ((PlateData.mk ∅ [] id).nearestExtPoint r.centroid) ∈
        closure (connectedComponentIn ((PlateData.mk ∅ [] id).region)ᶜ ((0:ℝ), (0:ℝ)))) ∧
    ∃ f : holesOf (add_sprues (PlateData.mk ∅ [] id) 2 5 10) →
        holesOf (PlateData.mk ∅ [] id).region, Function.Injective f :=
  ⟨fun h => Set.not_mem_empty _ h,
   not_isBounded_component_in_empty_compl,
   fun r hr => absurd hr (List.not_mem_nil r),
   add_sprues_never_increases_hole_count (PlateData.mk ∅ [] id) 2 5 10
     ((0:ℝ), (0:ℝ)) (fun h => Set.not_mem_empty _ h)
     not_isBounded_component_in_empty_compl
     (fun r hr => absurd hr (List.not_mem_nil r))⟩
